import Mathlib

/-!
Verification development for the group minigame engine
(`src/plugins/word_games.py`): room lifecycle, turn sequencing,
the number-bomb bisection game, the masked word-guessing game,
the idle-timeout supervisor, and the elimination-duel ("恶魔轮盘")
combat resolution.

Python dicts keyed by player id are embedded as functions
`Nat → Option α` (a missing key is `none`); dict-of-flag effects
(`players_effects[pid]["shield"]` etc.) are embedded as `Nat → Bool`.
Randomness (`random.choice`, `random.random`) is passed in explicitly
as oracle values, so every definition is executable.
Pure display/bookkeeping fields of the source (nicknames, CQ reply
codes, message strings, `mentioned_player_id` plumbing) are not part
of the state model; the target of a fire action is passed explicitly.
-/

/-- Pointwise update of a function-embedded dict. -/
def dictSet {α : Type} (f : Nat → α) (k : Nat) (v : α) : Nat → α :=
  fun q => if q = k then v else f q

/-- Room lifecycle status (`GameRoom.status`): `"waiting"`, `"running"`, `"ended"`. -/
inductive RoomStatus where
  | waiting
  | running
  | ended
deriving DecidableEq

/-- The common per-room state of the Python `GameRoom` class
(`word_games.py` lines 44–96).  String-only display fields
(`host_name`, `player_names`, `group_id`) are omitted. -/
structure GameRoom where
  status : RoomStatus
  host_id : Nat
  players : List Nat
  create_time : Int
  last_activity : Int
  round : Nat
  current_player_index : Nat
  skip_next_player : Option Nat
  current_bullet_type : Nat
  bullets : List Nat

/-- The search loop of `GameRoom.next_player` (lines 146–164): advance the
index cyclically, skipping eliminated players, and skipping (once,
clearing the flag) the player equal to `skip_next_player`; the loop body
runs at most `fuel = len(players)` times, and on exhaustion falls back to
the player at the current index.  Returns
(new index, new skip flag, chosen player id). -/
def next_player_loop (players eliminated : List Nat) :
    Nat → Option Nat → Nat → Nat × Option Nat × Nat
  | 0, skip, idx => (idx, skip, players.getD idx 0)
  | fuel + 1, skip, idx =>
    let idx' := (idx + 1) % players.length
    let pid := players.getD idx' 0
    if pid ∈ eliminated then
      next_player_loop players eliminated fuel skip idx'
    else if skip = some pid then
      next_player_loop players eliminated fuel none idx'
    else
      (idx', skip, pid)

/-- `GameRoom.next_player` (lines 136–164).  The eliminated-player list
lives in `game_data["eliminated_players"]` and is passed in.  Returns the
updated room (index and skip flag are mutated in place in the source)
together with the chosen player id. -/
def next_player (room : GameRoom) (eliminated : List Nat) : GameRoom × Nat :=
  if room.players.isEmpty then (room, 0)
  else
    let r := next_player_loop room.players eliminated room.players.length
      room.skip_next_player room.current_player_index
    ({ room with current_player_index := r.1, skip_next_player := r.2.1 }, r.2.2)

/-! ## Number bomb (数字炸弹) -/

/-- `game_data` of a number-bomb room (lines 490–495).  A recorded guess
is (user id, value, time). -/
structure NumberBombData where
  bomb_number : Nat
  current_min : Nat
  current_max : Nat
  guesses : List (Nat × Nat × Int)

/-- Outcome reported by the number-bomb reply handler. -/
inductive NBOutcome where
  | notHandled
  | rejectedRange (lo hi : Nat)
  | boom (loser : Nat)
  | narrowedLow
  | narrowedHigh
deriving DecidableEq

/-- The join branch of `_handle_number_bomb_reply` in the waiting phase
(lines 556–585): the activity timestamp is refreshed first (line 557),
then a player already present is rejected, otherwise appended.  There is
no capacity check in this handler. -/
def number_bomb_join (room : GameRoom) (user_id : Nat) (now : Int) :
    GameRoom × Bool :=
  let room0 := { room with last_activity := now }
  if user_id ∈ room0.players then (room0, false)
  else ({ room0 with players := room0.players ++ [user_id] }, true)

/-- The running-phase guess path of `_handle_number_bomb_reply`
(lines 556–692), for a message that parses as the digits of `guess`.
The first component models the registry entry for the room: `none`
means `del self.games[group_id]` was executed. -/
def number_bomb_guess (room : GameRoom) (gd : NumberBombData)
    (user_id guess : Nat) (now : Int) :
    Option (GameRoom × NumberBombData) × NBOutcome :=
  let room0 := { room with last_activity := now }
  if room0.status = RoomStatus.running then
    if user_id ∈ room0.players then
      if guess ≤ gd.current_min ∨ guess ≥ gd.current_max then
        (some (room0, gd), NBOutcome.rejectedRange gd.current_min gd.current_max)
      else
        let gd1 := { gd with guesses := gd.guesses ++ [(user_id, guess, now)] }
        if guess = gd.bomb_number then
          (none, NBOutcome.boom user_id)
        else if guess < gd.bomb_number then
          (some (room0, { gd1 with current_min := guess }), NBOutcome.narrowedLow)
        else
          (some (room0, { gd1 with current_max := guess }), NBOutcome.narrowedHigh)
    else (some (room0, gd), NBOutcome.notHandled)
  else (some (room0, gd), NBOutcome.notHandled)

/-! ## Word guessing (猜词) -/

/-- `game_data` of a word-guess room (lines 1015–1029), restricted to the
fields the guessing phase touches.  The mask holds either a revealed
character or `'_'`. -/
structure WordGuessData where
  target_word : List Char
  guessed_chars : List Char
  mask : List Char
  attempts : Nat
  max_attempts : Nat

/-- Status of the dict-based word-guess game entry
(`self.games[group_id]["status"]`). -/
inductive WGStatus where
  | running
  | stopped
deriving DecidableEq

/-- A word-guess game entry. -/
structure WordGuessGame where
  status : WGStatus
  data : WordGuessData

/-- The CJK range test of line 1112: `'一' <= message <= '鿿'`
on a single-character string. -/
def is_cjk (c : Char) : Bool :=
  0x4e00 ≤ c.val && c.val ≤ 0x9fff

/-- The guessing-phase portion of `_handle_word_guessing_reply`
(lines 1108–1166): a message of exactly one CJK character is processed
as a guess (updates the guessed set, the attempts counter and the mask,
and may stop the game on a full mask or exhausted attempts); any other
message returns `False` with no state change.  The returned `Bool` is
the handler's return value. -/
def handle_word_guessing_reply (g : WordGuessGame) (msg : List Char) :
    WordGuessGame × Bool :=
  match msg with
  | [c] =>
    if is_cjk c then
      let d := g.data
      let guessed' := d.guessed_chars ++ [c]
      let attempts' := d.attempts + 1
      let mask' := d.target_word.map
        (fun ch => if ch = c ∨ ch ∈ guessed' then ch else '_')
      let st1 := if '_' ∉ mask' then WGStatus.stopped else g.status
      let st2 := if attempts' ≥ d.max_attempts then WGStatus.stopped else st1
      ({ status := st2,
         data := { d with
            guessed_chars := guessed'
            attempts := attempts'
            mask := mask' } }, true)
    else (g, false)
  | _ => (g, false)

/-! ## Timeout supervisor -/

/-- Decision of one iteration of `_check_game_timeout` (lines 1248–1304):
`close` means the iteration sends the timeout notification and deletes
the room from the registry.  The waiting threshold is 300 s and the
running threshold 600 s, both measured against `last_activity`. -/
inductive TimeoutAction where
  | close
  | keep
deriving DecidableEq

/-- One poll of the timeout supervisor over a live room. -/
def check_game_timeout_step (room : GameRoom) (now : Int) : TimeoutAction :=
  if room.status = RoomStatus.waiting then
    if now - room.last_activity > 300 then TimeoutAction.close else TimeoutAction.keep
  else if room.status = RoomStatus.running then
    if now - room.last_activity > 600 then TimeoutAction.close else TimeoutAction.keep
  else TimeoutAction.keep

/-! ## Elimination duel (恶魔轮盘) -/

/-- `game_data` of an evil-roulette room (lines 1331–1341 plus the
transient `sniper_shot` / `double_shot` keys set by item use).
`players_health` and `players_items` embed the Python dicts
(a deleted key is `none`); the three effect maps embed
`players_effects[pid].get("shield"/"evasion"/"defense")`. -/
structure RouletteData where
  players_health : Nat → Option Nat
  players_items : Nat → Option (List Nat)
  shield_of : Nat → Bool
  evasion_of : Nat → Bool
  defense_of : Nat → Bool
  eliminated_players : List Nat
  round_counter : Nat
  bullets_remaining : Int
  bullets_per_round : Nat
  sniper_shot : Bool
  double_shot : Bool

/-- Random draws consumed by one fire action:
`fallback1`/`fallback2` model `load_bullet()` when the pre-generated
bullet list is empty; `evade_coin` models `random.random() < 0.5` in the
evasion check; `new_bullet_coins` models the per-slot 50/50 draws of
`generate_bullets`; `item_coin`/`item_pick` model the per-player
item draws of a round transition. -/
structure FireOracle where
  fallback1 : Nat
  fallback2 : Nat
  evade_coin : Bool
  new_bullet_coins : Nat → Bool
  item_coin : Nat → Bool
  item_pick : Nat → Nat

/-- `GameRoom.generate_bullets` (lines 173–177): a fresh list of exactly
`count` bullets, each drawn 50/50 between blank (1) and live (2). -/
def generate_bullets (coins : Nat → Bool) (count : Nat) : List Nat :=
  (List.range count).map (fun i => if coins i then 1 else 2)

/-- Result flags of the defensive-effect resolution of one shot. -/
structure ShotResolution where
  damage : Nat
  had_shield : Bool
  evaded : Bool
  reduced : Bool

/-- The defensive-effect precedence of a first shot against `target`
(lines 1802–1824): shield forces the damage to 0 and is consumed;
otherwise evasion gives a 50% chance (`evade_coin`) to force 0 damage,
consumed only when the evasion succeeds (the `del` sits inside the
coin-flip branch); otherwise a bullet-proof vest reduces positive
damage by 1 and is consumed. -/
def resolve_defense_effects (gd : RouletteData) (target : Nat)
    (damage0 : Nat) (evade_coin : Bool) : RouletteData × ShotResolution :=
  if gd.shield_of target then
    ({ gd with shield_of := dictSet gd.shield_of target false },
     { damage := 0, had_shield := true, evaded := false, reduced := false })
  else if gd.evasion_of target then
    if evade_coin then
      ({ gd with evasion_of := dictSet gd.evasion_of target false },
       { damage := 0, had_shield := false, evaded := true, reduced := false })
    else
      (gd, { damage := damage0, had_shield := false, evaded := false, reduced := false })
  else if damage0 > 0 && gd.defense_of target then
    ({ gd with defense_of := dictSet gd.defense_of target false },
     { damage := damage0 - 1, had_shield := false, evaded := false, reduced := true })
  else
    (gd, { damage := damage0, had_shield := false, evaded := false, reduced := false })

/-- Damage application and elimination check of the first shot
(lines 1826–1837): positive damage is subtracted from health (floor 0,
default 3 for a missing key); a player reaching 0 health is appended to
`eliminated_players` and loses the items dict entry. -/
def apply_damage (gd : RouletteData) (target damage : Nat) : RouletteData :=
  if damage > 0 then
    let cur := (gd.players_health target).getD 3
    let newHealth := max 0 (cur - damage)
    let gd1 := { gd with players_health := dictSet gd.players_health target (some newHealth) }
    if newHealth = 0 ∧ target ∉ gd.eliminated_players then
      { gd1 with
          eliminated_players := gd.eliminated_players ++ [target]
          players_items := dictSet gd1.players_items target none }
    else gd1
  else gd

/-- Damage application of the second (double-shot) bullet
(lines 1907–1917): same as `apply_damage` but guarded by the target not
already being eliminated, and never consulting defensive effects. -/
def apply_second_damage (gd : RouletteData) (target damage : Nat) : RouletteData :=
  if damage > 0 ∧ target ∉ gd.eliminated_players then
    let cur := (gd.players_health target).getD 3
    let newHealth := max 0 (cur - damage)
    let gd1 := { gd with players_health := dictSet gd.players_health target (some newHealth) }
    if newHealth = 0 ∧ target ∉ gd.eliminated_players then
      { gd1 with
          eliminated_players := gd.eliminated_players ++ [target]
          players_items := dictSet gd1.players_items target none }
    else gd1
  else gd

/-- `players_items[pid] = []` for every roster player who is not
eliminated and still has an items entry (lines 1984–1987). -/
def clear_items (eliminated players : List Nat)
    (items : Nat → Option (List Nat)) : Nat → Option (List Nat) :=
  players.foldl
    (fun acc pid =>
      if pid ∉ eliminated ∧ (acc pid).isSome then
        dictSet acc pid (some [])
      else acc)
    items

/-- The per-player 50% item draw of a round transition
(lines 1989–1998): each surviving roster player whose coin lands true
and who has an items entry gets one drawn item appended. -/
def repopulate_items (eliminated : List Nat) (coin : Nat → Bool)
    (pick : Nat → Nat) (players : List Nat)
    (items : Nat → Option (List Nat)) : Nat → Option (List Nat) :=
  players.foldl
    (fun acc pid =>
      if pid ∈ eliminated then acc
      else if coin pid then
        match acc pid with
        | some v => dictSet acc pid (some (v ++ [pick pid]))
        | none => acc
      else acc)
    items

/-- The round transition executed when the round's bullets are exhausted
(lines 1977–2025, identical to 2044–2092): increment the round counter,
recompute the budget as `min(8, round+2)`, reset the remaining-bullet
count, clear and re-roll the surviving players' items, advance the
turn, and generate a fresh bullet list of budget length. -/
def roulette_new_round (room : GameRoom) (gd : RouletteData)
    (o : FireOracle) : GameRoom × RouletteData :=
  let round' := gd.round_counter + 1
  let budget := min 8 (round' + 2)
  let items1 := clear_items gd.eliminated_players room.players gd.players_items
  let items2 := repopulate_items gd.eliminated_players o.item_coin o.item_pick
    room.players items1
  let gd1 := { gd with
      round_counter := round'
      bullets_per_round := budget
      bullets_remaining := (budget : Int)
      players_items := items2 }
  let adv := next_player room gd.eliminated_players
  let bullets' := generate_bullets o.new_bullet_coins budget
  ({ adv.1 with bullets := bullets' }, gd1)

/-- Per-fire-action observables used by the theorems below:
`next_player_calls` counts how many times the fire handler invoked
`next_player`; `ended` records the win-condition transition to Ended;
`last_bullet` is the value of the Python `bullet_type` variable at
line 1973 (the second bullet after a double shot); `rem_after` is
`bullets_remaining` after the shot decrements, as tested at
lines 1975 and 2043. -/
structure FireRes where
  next_player_calls : Nat
  ended : Bool
  last_bullet : Nat
  rem_after : Int

/-- The common tail of the fire handler (lines 2042–2122): if the
bullets are exhausted run a round transition, otherwise just advance
the turn; either way `next_player` runs exactly once here. -/
def fire_tail (room : GameRoom) (gd : RouletteData) (calls0 : Nat)
    (last_bullet : Nat) (rem_after : Int) (o : FireOracle) :
    GameRoom × RouletteData × FireRes :=
  if gd.bullets_remaining ≤ 0 then
    let nr := roulette_new_round room gd o
    (nr.1, nr.2,
     { next_player_calls := calls0 + 1, ended := false
       last_bullet := last_bullet, rem_after := rem_after })
  else
    let adv := next_player room gd.eliminated_players
    (adv.1, gd,
     { next_player_calls := calls0 + 1, ended := false
       last_bullet := last_bullet, rem_after := rem_after })

/-- Lines 1948–2122: after the shot(s), check the win condition; then a
blank self-fire with exhausted bullets runs a round transition and
*falls through* (there is no `return` at line 2025) into the common
tail, while a blank self-fire with bullets left keeps the turn and
returns. -/
def fire_finish (room : GameRoom) (gd : RouletteData)
    (shooter target last_bullet : Nat) (o : FireOracle) :
    GameRoom × RouletteData × FireRes :=
  let alive := room.players.filter (fun p => p ∉ gd.eliminated_players)
  let rem_after := gd.bullets_remaining
  if alive.length ≤ 1 then
    ({ room with status := RoomStatus.ended }, gd,
     { next_player_calls := 0, ended := true
       last_bullet := last_bullet, rem_after := rem_after })
  else if last_bullet = 1 ∧ target = shooter then
    if gd.bullets_remaining ≤ 0 then
      let nr := roulette_new_round room gd o
      fire_tail nr.1 nr.2 1 last_bullet rem_after o
    else
      (room, gd,
       { next_player_calls := 0, ended := false
         last_bullet := last_bullet, rem_after := rem_after })
  else
    fire_tail room gd 0 last_bullet rem_after o

/-- The first bullet of a fire action (lines 1769–1837 and 1866): pop
(or draw) the bullet, compute base damage with the sniper override,
resolve the target's defensive effects, apply the damage and decrement
the remaining count.  Returns (room, duel data, bullet type). -/
def first_shot_data (gd : RouletteData) (target damage1 : Nat)
    (coin : Bool) : RouletteData :=
  let rd := resolve_defense_effects gd target damage1 coin
  let gd3 := apply_damage rd.1 target rd.2.damage
  { gd3 with bullets_remaining := gd3.bullets_remaining - 1 }

/-- See `shot_phase_first`; the room-side bullet pop of lines 1769–1777. -/
def shot_phase_first (room : GameRoom) (gd : RouletteData) (target : Nat)
    (o : FireOracle) : GameRoom × RouletteData × Nat :=
  let pop1 :=
    match room.bullets with
    | b :: rest => if gd.bullets_remaining > 0 then (b, rest) else (o.fallback1, room.bullets)
    | [] => (o.fallback1, ([] : List Nat))
  let b1 := pop1.1
  let room1 := { room with bullets := pop1.2, current_bullet_type := b1 }
  let baseDamage := if b1 = 1 then 0 else 1
  let damage1 := if gd.sniper_shot then 2 else baseDamage
  let gd1 := if gd.sniper_shot then { gd with sniper_shot := false } else gd
  (room1, first_shot_data gd1 target damage1 o.evade_coin, b1)

/-- The optional double shot (lines 1868–1946): when armed and bullets
remain, a second bullet is popped (or drawn), overwrites the
`bullet_type` variable, and is applied without consulting the
defensive effects. -/
def second_shot_data (gd : RouletteData) (target damage2 : Nat) : RouletteData :=
  let gdB := apply_second_damage gd target damage2
  { gdB with bullets_remaining := gdB.bullets_remaining - 1 }

/-- See `shot_phase_second`; the double-shot pop of lines 1875–1885. -/
def shot_phase_second (room1 : GameRoom) (gd4 : RouletteData)
    (target b1 : Nat) (o : FireOracle) : GameRoom × RouletteData × Nat :=
  if gd4.double_shot then
    let gdA := { gd4 with double_shot := false }
    if gdA.bullets_remaining > 0 then
      let pop2 :=
        match room1.bullets with
        | b :: rest => (b, rest)
        | [] => (o.fallback2, ([] : List Nat))
      let b2 := pop2.1
      let damage2 := if b2 = 1 then 0 else 1
      ({ room1 with bullets := pop2.2, current_bullet_type := b2 },
       second_shot_data gdA target damage2, b2)
    else (room1, gdA, b1)
  else (room1, gd4, b1)

/-- The shot phase of a fire action (lines 1769–1946): first bullet,
then the optional double shot. -/
def shot_phase (room : GameRoom) (gd : RouletteData) (target : Nat)
    (o : FireOracle) : GameRoom × RouletteData × Nat :=
  let f := shot_phase_first room gd target o
  shot_phase_second f.1 f.2.1 target f.2.2 o

/-- A full accepted fire action by the current player `shooter` against
`target` (lines 1769–2122): the shot phase followed by the win-check /
turn-advance / round-transition tail. -/
def fire_action (room : GameRoom) (gd : RouletteData)
    (shooter target : Nat) (o : FireOracle) :
    GameRoom × RouletteData × FireRes :=
  let sp := shot_phase room gd target o
  fire_finish sp.1 sp.2.1 shooter target sp.2.2 o

/-- The join branch of `_handle_evil_roulette_reply` in the waiting
phase (lines 1377–1420): activity refresh, then reject when 4 players
are already present, then reject duplicates, otherwise append and
initialise health 3, empty items and empty effects. -/
inductive JoinOutcome where
  | roomFull
  | alreadyIn
  | joined
deriving DecidableEq

/-- Evil-roulette join (lines 1377–1420). -/
def roulette_join (room : GameRoom) (gd : RouletteData)
    (user_id : Nat) (now : Int) : GameRoom × RouletteData × JoinOutcome :=
  let room0 := { room with last_activity := now }
  if room0.players.length ≥ 4 then (room0, gd, JoinOutcome.roomFull)
  else if user_id ∈ room0.players then (room0, gd, JoinOutcome.alreadyIn)
  else
    ({ room0 with players := room0.players ++ [user_id] },
     { gd with
        players_health := dictSet gd.players_health user_id (some 3)
        players_items := dictSet gd.players_items user_id (some [])
        shield_of := dictSet gd.shield_of user_id false
        evasion_of := dictSet gd.evasion_of user_id false
        defense_of := dictSet gd.defense_of user_id false },
     JoinOutcome.joined)

/-! ## Concrete states used by witnesses and counterexamples -/

/-- A running two-player number-bomb room. -/
def nbRoom0 : GameRoom :=
  { status := RoomStatus.running, host_id := 10, players := [10, 20]
    create_time := 0, last_activity := 0, round := 1
    current_player_index := 0, skip_next_player := none
    current_bullet_type := 0, bullets := [] }

/-- Number-bomb data for the spec scenario: range (1,100), hidden 37. -/
def nbData0 : NumberBombData :=
  { bomb_number := 37, current_min := 1, current_max := 100, guesses := [] }

/-- Scenario step 1: player 10 guesses 50. -/
def nbStep1 : Option (GameRoom × NumberBombData) × NBOutcome :=
  number_bomb_guess nbRoom0 nbData0 10 50 5

/-- State after step 1. -/
def nbState1 : GameRoom × NumberBombData := nbStep1.1.getD (nbRoom0, nbData0)

/-- Scenario step 2: player 20 guesses 20. -/
def nbStep2 : Option (GameRoom × NumberBombData) × NBOutcome :=
  number_bomb_guess nbState1.1 nbState1.2 20 20 6

/-- State after step 2. -/
def nbState2 : GameRoom × NumberBombData := nbStep2.1.getD (nbRoom0, nbData0)

/-- Scenario step 3: player 10 guesses the bomb number 37. -/
def nbStep3 : Option (GameRoom × NumberBombData) × NBOutcome :=
  number_bomb_guess nbState2.1 nbState2.2 10 37 7

/-- A waiting number-bomb room that already holds 8 players. -/
def nbRoomFull8 : GameRoom :=
  { nbRoom0 with status := RoomStatus.waiting, players := [1, 2, 3, 4, 5, 6, 7, 8] }

/-- A waiting room created at time 0 whose last activity (a join) was at 200. -/
def waitingRoom200 : GameRoom :=
  { nbRoom0 with status := RoomStatus.waiting, create_time := 0, last_activity := 200 }

/-- A running number-bomb room with last activity 100, for the frame claim. -/
def nbRoomAct100 : GameRoom := { nbRoom0 with last_activity := 100 }

/-- Duel data in which player 2 has *all three* defensive effects armed
and the shooter has armed a sniper shot. -/
def gdShield : RouletteData :=
  { players_health := fun _ => some 3
    players_items := fun _ => some []
    shield_of := fun p => p == 2
    evasion_of := fun p => p == 2
    defense_of := fun p => p == 2
    eliminated_players := []
    round_counter := 1
    bullets_remaining := 3
    bullets_per_round := 3
    sniper_shot := true
    double_shot := false }

/-- A waiting duel room with the maximum of 4 players. -/
def duelRoomFull : GameRoom :=
  { nbRoom0 with status := RoomStatus.waiting, players := [1, 2, 3, 4] }

/-! ## C1: shield precedence -/

/-- C1: in the elimination duel, a fire resolution against a target with
an active shield resolves to 0 damage for every shot outcome
(`damage0` covers blank 0, live 1 and sniper-boosted 2) and every
evasion coin; the shield is consumed and nothing else of the duel data
changes — in particular the target's health, evasion and
damage-reduction effects, items and elimination status are untouched. -/
theorem shield_negates_shot (gd : RouletteData) (target damage0 : Nat)
    (coin : Bool) (hsh : gd.shield_of target = true) :
    (resolve_defense_effects gd target damage0 coin).2.damage = 0 ∧
    (resolve_defense_effects gd target damage0 coin).2.had_shield = true ∧
    (resolve_defense_effects gd target damage0 coin).2.evaded = false ∧
    (resolve_defense_effects gd target damage0 coin).2.reduced = false ∧
    (apply_damage (resolve_defense_effects gd target damage0 coin).1 target
        (resolve_defense_effects gd target damage0 coin).2.damage) =
      { gd with shield_of := dictSet gd.shield_of target false } ∧
    dictSet gd.shield_of target false target = false := by
  simp [resolve_defense_effects, apply_damage, hsh, dictSet]

/-- Witness for C1 at a concrete state where the target also has
evasion and damage reduction active and the shot is sniper-boosted. -/
theorem shield_negates_shot_witness :
    gdShield.shield_of 2 = true ∧
    (resolve_defense_effects gdShield 2 2 true).2.damage = 0 ∧
    (apply_damage (resolve_defense_effects gdShield 2 2 true).1 2
        (resolve_defense_effects gdShield 2 2 true).2.damage) =
      { gdShield with shield_of := dictSet gdShield.shield_of 2 false } :=
  ⟨rfl, (shield_negates_shot gdShield 2 2 true rfl).1,
   (shield_negates_shot gdShield 2 2 true rfl).2.2.2.2.1⟩

/-! ## C5: number-bomb narrowing -/

/-- C5: an accepted non-triggering guess moves exactly one bound onto
the guess (`current_min` when the guess undershoots the bomb,
`current_max` when it overshoots), the interval stays nonempty
(`current_min < current_max`) and strictly shrinks. -/
theorem number_bomb_narrowing (room : GameRoom) (gd : NumberBombData)
    (u g : Nat) (now : Int)
    (hs : room.status = RoomStatus.running) (hp : u ∈ room.players)
    (hlo : gd.current_min < g) (hhi : g < gd.current_max)
    (hb : g ≠ gd.bomb_number) :
    (g < gd.bomb_number →
      number_bomb_guess room gd u g now =
        (some ({ room with last_activity := now },
           { gd with guesses := gd.guesses ++ [(u, g, now)], current_min := g }),
         NBOutcome.narrowedLow) ∧
      g < gd.current_max ∧
      gd.current_max - g < gd.current_max - gd.current_min) ∧
    (gd.bomb_number < g →
      number_bomb_guess room gd u g now =
        (some ({ room with last_activity := now },
           { gd with guesses := gd.guesses ++ [(u, g, now)], current_max := g }),
         NBOutcome.narrowedHigh) ∧
      gd.current_min < g ∧
      g - gd.current_min < gd.current_max - gd.current_min) := by
  have hrej : ¬ (g ≤ gd.current_min ∨ g ≥ gd.current_max) := by omega
  constructor
  · intro hlt
    refine ⟨?_, hhi, by omega⟩
    simp [number_bomb_guess, hs, hp, hrej, hb, hlt]
  · intro hgt
    refine ⟨?_, hlo, by omega⟩
    simp [number_bomb_guess, hs, hp, hrej, hb, Nat.lt_asymm hgt]

/-- Witness for C5: player 10's guess 50 against bomb 37 in (1,100). -/
theorem number_bomb_narrowing_witness :
    number_bomb_guess nbRoom0 nbData0 10 50 5 =
      (some ({ nbRoom0 with last_activity := 5 },
         { nbData0 with guesses := [(10, 50, 5)], current_max := 50 }),
       NBOutcome.narrowedHigh) ∧
    nbData0.current_min < 50 ∧
    50 - nbData0.current_min < nbData0.current_max - nbData0.current_min :=
  (number_bomb_narrowing nbRoom0 nbData0 10 50 5 rfl (by decide) (by decide)
    (by decide) (by decide)).2 (by decide)

/-! ## C6: number-bomb trigger ends the room -/

/-- C6: an in-range guess equal to the hidden bomb number deletes the
room from the registry (`none`) and reports the guessing player as the
loser. -/
theorem number_bomb_trigger (room : GameRoom) (gd : NumberBombData)
    (u g : Nat) (now : Int)
    (hs : room.status = RoomStatus.running) (hp : u ∈ room.players)
    (hlo : gd.current_min < g) (hhi : g < gd.current_max)
    (hb : g = gd.bomb_number) :
    (number_bomb_guess room gd u g now).1 = none ∧
    (number_bomb_guess room gd u g now).2 = NBOutcome.boom u := by
  have hrej : ¬ (g ≤ gd.current_min ∨ g ≥ gd.current_max) := by omega
  subst hb
  constructor <;> simp [number_bomb_guess, hs, hp, hrej]

/-- Witness for C6: the spec scenario — range (1,100), bomb 37; guess 50
narrows to (1,50), guess 20 narrows to (20,50), guess 37 removes the
room and reports player 10 as the loser. -/
theorem number_bomb_trigger_witness :
    nbState1.2.current_min = 1 ∧ nbState1.2.current_max = 50 ∧
    nbState2.2.current_min = 20 ∧ nbState2.2.current_max = 50 ∧
    nbStep3.1 = none ∧ nbStep3.2 = NBOutcome.boom 10 :=
  ⟨by decide, by decide, by decide, by decide,
   (number_bomb_trigger nbState2.1 nbState2.2 10 37 7 (by decide) (by decide)
     (by decide) (by decide) (by decide)).1,
   (number_bomb_trigger nbState2.1 nbState2.2 10 37 7 (by decide) (by decide)
     (by decide) (by decide) (by decide)).2⟩

/-! ## C9: rejected guess and the frame -/

/-- Counterexample for C9 as stated: an out-of-range guess (200 against
the open interval (1,100)) is rejected with the bounds hint, yet the
room's `last_activity` field *does* change (100 → 777), because the
handler refreshes activity before validating the move (line 557). -/
theorem rejected_guess_activity_cex :
    (number_bomb_guess nbRoomAct100 nbData0 10 200 777).2 =
      NBOutcome.rejectedRange 1 100 ∧
    ((number_bomb_guess nbRoomAct100 nbData0 10 200 777).1.map
        (fun s => s.1.last_activity)) = some 777 ∧
    nbRoomAct100.last_activity = 100 := by
  constructor
  · decide
  constructor
  · decide
  · decide

/-- C9 amended: a guess failing the open-interval validation is reported
with the expected-bounds hint and leaves every room and game field
unchanged — interval bounds, guess history and roster — *except* the
last-activity timestamp, which is refreshed to `now` (the handler
refreshes activity on every inbound message, before validation). -/
theorem rejected_guess_frame (room : GameRoom) (gd : NumberBombData)
    (u g : Nat) (now : Int)
    (hs : room.status = RoomStatus.running) (hp : u ∈ room.players)
    (hrej : g ≤ gd.current_min ∨ g ≥ gd.current_max) :
    number_bomb_guess room gd u g now =
      (some ({ room with last_activity := now }, gd),
       NBOutcome.rejectedRange gd.current_min gd.current_max) := by
  simp [number_bomb_guess, hs, hp, hrej]

/-- Witness for the amended C9. -/
theorem rejected_guess_frame_witness :
    nbRoomAct100.status = RoomStatus.running ∧ (10 : Nat) ∈ nbRoomAct100.players ∧
    (200 : Nat) ≥ nbData0.current_max ∧
    number_bomb_guess nbRoomAct100 nbData0 10 200 777 =
      (some ({ nbRoomAct100 with last_activity := 777 }, nbData0),
       NBOutcome.rejectedRange nbData0.current_min nbData0.current_max) :=
  ⟨rfl, by decide, by decide,
   rejected_guess_frame nbRoomAct100 nbData0 10 200 777 rfl (by decide)
     (Or.inr (by decide))⟩

/-! ## C7: join capacity -/

/-- Counterexample for C7 as stated: a 9th player joins a waiting
number-bomb room that already holds 8 players — the generic handlers
perform no capacity check at all (the `/8` of the room info text is
display only), so the join succeeds and the roster grows to 9. -/
theorem number_bomb_join_no_cap_cex :
    nbRoomFull8.players.length = 8 ∧
    (number_bomb_join nbRoomFull8 9 50).2 = true ∧
    (number_bomb_join nbRoomFull8 9 50).1.players.length = 9 := by
  refine ⟨by decide, ?_, ?_⟩ <;> decide

/-- C7 amended: in the waiting phase the elimination-duel join is
rejected as room-full (roster unchanged) exactly when the roster
already holds 4 players; the other game types enforce no maximum —
e.g. a number-bomb join by a new player always succeeds and appends,
whatever the roster size. -/
theorem join_capacity_checks :
    (∀ (room : GameRoom) (gd : RouletteData) (u : Nat) (now : Int),
      4 ≤ room.players.length →
      (roulette_join room gd u now).2.2 = JoinOutcome.roomFull ∧
      (roulette_join room gd u now).1.players = room.players) ∧
    (∀ (room : GameRoom) (u : Nat) (now : Int), u ∉ room.players →
      (number_bomb_join room u now).2 = true ∧
      (number_bomb_join room u now).1.players = room.players ++ [u]) := by
  constructor
  · intro room gd u now h
    constructor <;> simp [roulette_join, h]
  · intro room u now h
    constructor <;> simp [number_bomb_join, h]

/-- Witness for the amended C7: the duel rejects the 5th player at a
4-player roster; the number-bomb room accepts a 9th player. -/
theorem join_capacity_checks_witness :
    (4 ≤ duelRoomFull.players.length ∧
     (roulette_join duelRoomFull gdShield 5 60).2.2 = JoinOutcome.roomFull ∧
     (roulette_join duelRoomFull gdShield 5 60).1.players = duelRoomFull.players) ∧
    ((9 : Nat) ∉ nbRoomFull8.players ∧
     (number_bomb_join nbRoomFull8 9 50).2 = true ∧
     (number_bomb_join nbRoomFull8 9 50).1.players = nbRoomFull8.players ++ [9]) :=
  ⟨⟨by decide,
    (join_capacity_checks.1 duelRoomFull gdShield 5 60 (by decide)).1,
    (join_capacity_checks.1 duelRoomFull gdShield 5 60 (by decide)).2⟩,
   ⟨by decide,
    (join_capacity_checks.2 nbRoomFull8 9 50 (by decide)).1,
    (join_capacity_checks.2 nbRoomFull8 9 50 (by decide)).2⟩⟩

/-! ## C8: waiting-phase timeout -/

/-- Counterexample for C8 as stated: a room still in the waiting phase
whose age (`now - create_time = 400`) exceeds the 300 s waiting
threshold is *not* closed by the supervisor poll, because the check
compares against `last_activity` (refreshed to 200 by a join), not
against `create_time`. -/
theorem waiting_timeout_created_at_cex :
    waitingRoom200.status = RoomStatus.waiting ∧
    (400 : Int) - waitingRoom200.create_time > 300 ∧
    check_game_timeout_step waitingRoom200 400 = TimeoutAction.keep := by
  refine ⟨rfl, by decide, by decide⟩

/-- C8 amended: the supervisor poll force-closes a waiting room (sends
the timeout notification and removes it from the registry) exactly once
`now - last_activity` exceeds the 300 s waiting threshold. -/
theorem waiting_timeout_last_activity (room : GameRoom) (now : Int)
    (hw : room.status = RoomStatus.waiting)
    (h : now - room.last_activity > 300) :
    check_game_timeout_step room now = TimeoutAction.close := by
  simp [check_game_timeout_step, hw, h]

/-- Witness for the amended C8. -/
theorem waiting_timeout_last_activity_witness :
    waitingRoom200.status = RoomStatus.waiting ∧
    (600 : Int) - waitingRoom200.last_activity > 300 ∧
    check_game_timeout_step waitingRoom200 600 = TimeoutAction.close :=
  ⟨rfl, by decide,
   waiting_timeout_last_activity waitingRoom200 600 rfl (by decide)⟩

/-! ## C10: word guessing accepts only single CJK characters -/

/-- C10: in the guessing phase only a message that is exactly one CJK
character (U+4E00–U+9FFF) is processed as a guess; every other message
— in particular any multi-character message, even one equal to the
whole target word — is left unhandled (`False`) with the game state
(mask, attempts, guessed set, status) unchanged. -/
theorem word_guess_single_cjk_only :
    (∀ (g : WordGuessGame) (msg : List Char),
      (∀ c, msg = [c] → is_cjk c = false) →
      handle_word_guessing_reply g msg = (g, false)) ∧
    (∀ (g : WordGuessGame) (c : Char), is_cjk c = true →
      (handle_word_guessing_reply g [c]).2 = true) := by
  constructor
  · intro g msg h
    match msg with
    | [] => rfl
    | [c] => simp [handle_word_guessing_reply, h c rfl]
    | a :: b :: rest => rfl
  · intro g c h
    simp [handle_word_guessing_reply, h]

/-- A running word-guess game on the word 电脑. -/
def wgGame0 : WordGuessGame :=
  { status := WGStatus.running
    data := { target_word := ['电', '脑'], guessed_chars := []
              mask := ['_', '_'], attempts := 0, max_attempts := 10 } }

/-- Witness for C10: guessing the complete two-character target word at
once is not handled and changes nothing, while a single CJK guess is
handled. -/
theorem word_guess_single_cjk_only_witness :
    handle_word_guessing_reply wgGame0 ['电', '脑'] = (wgGame0, false) ∧
    (handle_word_guessing_reply wgGame0 ['电']).2 = true :=
  ⟨word_guess_single_cjk_only.1 wgGame0 ['电', '脑']
     (by intro c h; simpa using congrArg List.length h),
   word_guess_single_cjk_only.2 wgGame0 '电' (by decide)⟩

/-! ## Frame lemmas for the shot phase -/

/-- What one bullet resolution may do to the duel data outside the
health/effect fields: the round counter is untouched, the target may be
appended (once) to the eliminated list, and only the target's items
entry can change (deleted exactly when the target got eliminated). -/
def ShotDelta (gd gd' : RouletteData) (t : Nat) : Prop :=
  gd'.round_counter = gd.round_counter ∧
  (gd'.eliminated_players = gd.eliminated_players ∨
    (gd'.eliminated_players = gd.eliminated_players ++ [t] ∧
     t ∉ gd.eliminated_players)) ∧
  (∀ q, q ≠ t → gd'.players_items q = gd.players_items q) ∧
  (gd'.players_items t = gd.players_items t ∨
    (gd'.players_items t = none ∧ t ∈ gd'.eliminated_players))

/-- A data update that leaves round counter, eliminated list and items
untouched is a (trivial) shot delta. -/
theorem shotDelta_of_eq {gd gd' : RouletteData} {t : Nat}
    (hr : gd'.round_counter = gd.round_counter)
    (he : gd'.eliminated_players = gd.eliminated_players)
    (hi : gd'.players_items = gd.players_items) : ShotDelta gd gd' t :=
  ⟨hr, Or.inl he, fun q _ => by rw [hi], Or.inl (by rw [hi])⟩

/-- Shot deltas compose. -/
theorem shotDelta_trans {gd1 gd2 gd3 : RouletteData} {t : Nat}
    (h12 : ShotDelta gd1 gd2 t) (h23 : ShotDelta gd2 gd3 t) :
    ShotDelta gd1 gd3 t := by
  obtain ⟨hr12, he12, hi12, ht12⟩ := h12
  obtain ⟨hr23, he23, hi23, ht23⟩ := h23
  have hmono : ∀ x, x ∈ gd2.eliminated_players → x ∈ gd3.eliminated_players := by
    rcases he23 with h | ⟨h, -⟩ <;> intro x hx <;> simp [h, hx]
  refine ⟨hr23.trans hr12, ?_, ?_, ?_⟩
  · rcases he12 with h12e | ⟨h12e, h12n⟩
    · rcases he23 with h23e | ⟨h23e, h23n⟩
      · exact Or.inl (h23e.trans h12e)
      · exact Or.inr ⟨by rw [h23e, h12e], by rwa [h12e] at h23n⟩
    · rcases he23 with h23e | ⟨h23e, h23n⟩
      · exact Or.inr ⟨h23e.trans h12e, h12n⟩
      · exact absurd (by simp [h12e]) h23n
  · intro q hq
    rw [hi23 q hq, hi12 q hq]
  · rcases ht23 with h23t | ⟨h23t, h23m⟩
    · rw [h23t]
      rcases ht12 with h12t | ⟨h12t, h12m⟩
      · exact Or.inl h12t
      · exact Or.inr ⟨h12t, hmono _ h12m⟩
    · exact Or.inr ⟨h23t, h23m⟩

/-- The defensive-effect resolution only touches the three effect maps. -/
theorem resolve_defense_frame (gd : RouletteData) (t d : Nat) (coin : Bool) :
    (resolve_defense_effects gd t d coin).1.players_health = gd.players_health ∧
    (resolve_defense_effects gd t d coin).1.players_items = gd.players_items ∧
    (resolve_defense_effects gd t d coin).1.eliminated_players = gd.eliminated_players ∧
    (resolve_defense_effects gd t d coin).1.round_counter = gd.round_counter ∧
    (resolve_defense_effects gd t d coin).1.bullets_remaining = gd.bullets_remaining ∧
    (resolve_defense_effects gd t d coin).1.bullets_per_round = gd.bullets_per_round ∧
    (resolve_defense_effects gd t d coin).1.double_shot = gd.double_shot ∧
    (resolve_defense_effects gd t d coin).1.sniper_shot = gd.sniper_shot := by
  unfold resolve_defense_effects
  split_ifs <;> simp

/-- The defensive-effect resolution yields a (trivial) shot delta. -/
theorem resolve_defense_delta (gd : RouletteData) (t d : Nat) (coin : Bool) :
    ShotDelta gd (resolve_defense_effects gd t d coin).1 t :=
  shotDelta_of_eq (resolve_defense_frame gd t d coin).2.2.2.1
    (resolve_defense_frame gd t d coin).2.2.1
    (resolve_defense_frame gd t d coin).2.1

/-- The first-bullet damage application is a shot delta. -/
theorem apply_damage_delta (gd : RouletteData) (t d : Nat) :
    ShotDelta gd (apply_damage gd t d) t := by
  unfold apply_damage
  dsimp only
  split_ifs with h1 h2
  · exact ⟨rfl, Or.inr ⟨rfl, h2.2⟩, fun q hq => by simp [dictSet, hq],
      Or.inr ⟨by simp [dictSet], by simp⟩⟩
  · exact ⟨rfl, Or.inl rfl, fun q _ => rfl, Or.inl rfl⟩
  · exact ⟨rfl, Or.inl rfl, fun q _ => rfl, Or.inl rfl⟩

/-- The second-bullet damage application is a shot delta. -/
theorem apply_second_damage_delta (gd : RouletteData) (t d : Nat) :
    ShotDelta gd (apply_second_damage gd t d) t := by
  unfold apply_second_damage
  dsimp only
  split_ifs with h1 h2
  · exact ⟨rfl, Or.inr ⟨rfl, h2.2⟩, fun q hq => by simp [dictSet, hq],
      Or.inr ⟨by simp [dictSet], by simp⟩⟩
  · exact ⟨rfl, Or.inl rfl, fun q _ => rfl, Or.inl rfl⟩
  · exact ⟨rfl, Or.inl rfl, fun q _ => rfl, Or.inl rfl⟩

/-- The unchanged-fields frame of the non-bullet room fields through the
first bullet. -/
theorem shot_phase_first_room (room : GameRoom) (gd : RouletteData)
    (t : Nat) (o : FireOracle) :
    (shot_phase_first room gd t o).1.players = room.players ∧
    (shot_phase_first room gd t o).1.current_player_index = room.current_player_index ∧
    (shot_phase_first room gd t o).1.skip_next_player = room.skip_next_player ∧
    (shot_phase_first room gd t o).1.status = room.status := by
  unfold shot_phase_first
  dsimp only
  exact ⟨rfl, rfl, rfl, rfl⟩

/-- The unchanged-fields frame of the non-bullet room fields through the
double shot. -/
theorem shot_phase_second_room (room1 : GameRoom) (gd4 : RouletteData)
    (t b1 : Nat) (o : FireOracle) :
    (shot_phase_second room1 gd4 t b1 o).1.players = room1.players ∧
    (shot_phase_second room1 gd4 t b1 o).1.current_player_index = room1.current_player_index ∧
    (shot_phase_second room1 gd4 t b1 o).1.skip_next_player = room1.skip_next_player ∧
    (shot_phase_second room1 gd4 t b1 o).1.status = room1.status := by
  unfold shot_phase_second
  dsimp only
  split_ifs <;> exact ⟨rfl, rfl, rfl, rfl⟩

/-- Decrementing the remaining-bullet count preserves a shot delta. -/
theorem shotDelta_rem_dec {gd gd' : RouletteData} {t : Nat} (x : Int)
    (h : ShotDelta gd gd' t) :
    ShotDelta gd { gd' with bullets_remaining := x } t := by
  obtain ⟨hr, he, hi, ht⟩ := h
  exact ⟨hr, he, hi, ht⟩

/-- One first-bullet resolution is a shot delta. -/
theorem first_shot_data_delta (gd : RouletteData) (t d : Nat) (coin : Bool) :
    ShotDelta gd (first_shot_data gd t d coin) t := by
  unfold first_shot_data
  dsimp only
  exact shotDelta_rem_dec _
    (shotDelta_trans (resolve_defense_delta gd t d coin) (apply_damage_delta _ t _))

/-- One second-bullet resolution is a shot delta. -/
theorem second_shot_data_delta (gd : RouletteData) (t d : Nat) :
    ShotDelta gd (second_shot_data gd t d) t := by
  unfold second_shot_data
  dsimp only
  exact shotDelta_rem_dec _ (apply_second_damage_delta gd t d)

/-- The first bullet induces a shot delta on the duel data. -/
theorem shot_phase_first_delta (room : GameRoom) (gd : RouletteData)
    (t : Nat) (o : FireOracle) :
    ShotDelta gd (shot_phase_first room gd t o).2.1 t := by
  unfold shot_phase_first
  dsimp only
  by_cases hs : gd.sniper_shot <;> simp only [hs] <;>
    exact shotDelta_trans (shotDelta_of_eq rfl rfl rfl)
      (first_shot_data_delta _ t _ o.evade_coin)

/-- The double shot induces a shot delta on the duel data. -/
theorem shot_phase_second_delta (room1 : GameRoom) (gd4 : RouletteData)
    (t b1 : Nat) (o : FireOracle) :
    ShotDelta gd4 (shot_phase_second room1 gd4 t b1 o).2.1 t := by
  unfold shot_phase_second
  dsimp only
  split_ifs <;>
  first
  | exact shotDelta_of_eq rfl rfl rfl
  | exact shotDelta_trans (shotDelta_of_eq rfl rfl rfl)
      (second_shot_data_delta _ t _)

/-- The whole shot phase induces a shot delta on the duel data. -/
theorem shot_phase_delta (room : GameRoom) (gd : RouletteData)
    (t : Nat) (o : FireOracle) :
    ShotDelta gd (shot_phase room gd t o).2.1 t :=
  shotDelta_trans (shot_phase_first_delta room gd t o)
    (shot_phase_second_delta _ _ t _ o)

/-- The whole shot phase preserves the non-bullet room fields. -/
theorem shot_phase_room (room : GameRoom) (gd : RouletteData)
    (t : Nat) (o : FireOracle) :
    (shot_phase room gd t o).1.players = room.players ∧
    (shot_phase room gd t o).1.current_player_index = room.current_player_index ∧
    (shot_phase room gd t o).1.skip_next_player = room.skip_next_player ∧
    (shot_phase room gd t o).1.status = room.status := by
  have h1 := shot_phase_first_room room gd t o
  have h2 := shot_phase_second_room (shot_phase_first room gd t o).1
    (shot_phase_first room gd t o).2.1 t (shot_phase_first room gd t o).2.2 o
  exact ⟨h2.1.trans h1.1, h2.2.1.trans h1.2.1, h2.2.2.1.trans h1.2.2.1,
    h2.2.2.2.trans h1.2.2.2⟩

/-! ## Item clearing / repopulation lemmas -/

/-- `clear_items` leaves keys outside the roster untouched. -/
theorem clear_items_not_mem (elim : List Nat) (players : List Nat)
    (items : Nat → Option (List Nat)) (q : Nat) (hq : q ∉ players) :
    clear_items elim players items q = items q := by
  induction players generalizing items with
  | nil => rfl
  | cons p rest ih =>
    simp only [List.mem_cons, not_or] at hq
    show clear_items elim rest
      (if p ∉ elim ∧ (items p).isSome then dictSet items p (some []) else items) q = items q
    rw [ih _ hq.2]
    by_cases hp : p ∉ elim ∧ (items p).isSome
    · simp [hp, dictSet, hq.1]
    · simp [hp]

/-- `clear_items` leaves eliminated players' entries untouched. -/
theorem clear_items_elim_mem (elim : List Nat) (players : List Nat)
    (items : Nat → Option (List Nat)) (q : Nat) (hq : q ∈ elim) :
    clear_items elim players items q = items q := by
  induction players generalizing items with
  | nil => rfl
  | cons p rest ih =>
    show clear_items elim rest
      (if p ∉ elim ∧ (items p).isSome then dictSet items p (some []) else items) q = items q
    rw [ih]
    by_cases hp : p ∉ elim ∧ (items p).isSome
    · have hqp : q ≠ p := fun h => hp.1 (h ▸ hq)
      simp [hp, dictSet, hqp]
    · simp [hp]

/-- `clear_items` resets a surviving roster player's existing entry. -/
theorem clear_items_mem_alive (elim : List Nat) (players : List Nat)
    (items : Nat → Option (List Nat)) (q : Nat) (hnd : players.Nodup)
    (hq : q ∈ players) (ha : q ∉ elim) :
    clear_items elim players items q =
      if (items q).isSome then some [] else items q := by
  induction players generalizing items with
  | nil => cases hq
  | cons p rest ih =>
    rw [List.nodup_cons] at hnd
    show clear_items elim rest
      (if p ∉ elim ∧ (items p).isSome then dictSet items p (some []) else items) q = _
    rcases List.mem_cons.mp hq with rfl | hqr
    · rw [clear_items_not_mem _ _ _ _ hnd.1]
      by_cases hs : (items q).isSome
      · simp [ha, hs, dictSet]
      · simp [ha, hs]
    · have hqp : q ≠ p := fun h => hnd.1 (h ▸ hqr)
      have hstep : (if p ∉ elim ∧ (items p).isSome then dictSet items p (some []) else items) q
          = items q := by
        by_cases hp : p ∉ elim ∧ (items p).isSome
        · simp [hp, dictSet, hqp]
        · simp [hp]
      rw [ih _ hnd.2 hqr, hstep]

/-- `repopulate_items` leaves keys outside the roster untouched. -/
theorem repopulate_items_not_mem (elim : List Nat) (coin : Nat → Bool)
    (pick : Nat → Nat) (players : List Nat) (items : Nat → Option (List Nat))
    (q : Nat) (hq : q ∉ players) :
    repopulate_items elim coin pick players items q = items q := by
  induction players generalizing items with
  | nil => rfl
  | cons p rest ih =>
    simp only [List.mem_cons, not_or] at hq
    show repopulate_items elim coin pick rest _ q = items q
    rw [ih _ hq.2]
    by_cases hp : p ∈ elim
    · simp [hp]
    · by_cases hc : coin p
      · simp only [hp, hc, if_false, if_true]
        rcases h : items p with _ | v
        · simp [h]
        · simp [h, dictSet, hq.1]
      · simp [hp, hc]

/-- `repopulate_items` leaves eliminated players' entries untouched. -/
theorem repopulate_items_elim_mem (elim : List Nat) (coin : Nat → Bool)
    (pick : Nat → Nat) (players : List Nat) (items : Nat → Option (List Nat))
    (q : Nat) (hq : q ∈ elim) :
    repopulate_items elim coin pick players items q = items q := by
  induction players generalizing items with
  | nil => rfl
  | cons p rest ih =>
    show repopulate_items elim coin pick rest _ q = items q
    rw [ih]
    by_cases hp : p ∈ elim
    · simp [hp]
    · have hqp : q ≠ p := fun h => hp (h ▸ hq)
      by_cases hc : coin p
      · simp only [hp, hc, if_false, if_true]
        rcases h : items p with _ | v
        · simp [h]
        · simp [h, dictSet, hqp]
      · simp [hp, hc]

/-- `repopulate_items` gives each surviving roster player one drawn item
when the coin lands true. -/
theorem repopulate_items_mem_alive (elim : List Nat) (coin : Nat → Bool)
    (pick : Nat → Nat) (players : List Nat) (items : Nat → Option (List Nat))
    (q : Nat) (hnd : players.Nodup) (hq : q ∈ players) (ha : q ∉ elim) :
    repopulate_items elim coin pick players items q =
      if coin q then (items q).map (fun v => v ++ [pick q]) else items q := by
  induction players generalizing items with
  | nil => cases hq
  | cons p rest ih =>
    rw [List.nodup_cons] at hnd
    show repopulate_items elim coin pick rest _ q = _
    rcases List.mem_cons.mp hq with rfl | hqr
    · rw [repopulate_items_not_mem _ _ _ _ _ _ hnd.1]
      by_cases hc : coin q
      · simp only [ha, hc, if_false, if_true]
        rcases h : items q with _ | v
        · simp [h]
        · simp [h, dictSet]
      · simp [ha, hc]
    · have hqp : q ≠ p := fun h => hnd.1 (h ▸ hqr)
      have hstep : (if p ∈ elim then items
          else if coin p then
            match items p with
            | some v => dictSet items p (some (v ++ [pick p]))
            | none => items
          else items) q = items q := by
        by_cases hp : p ∈ elim
        · simp [hp]
        · by_cases hc : coin p
          · simp only [hp, hc, if_false, if_true]
            rcases h : items p with _ | v
            · simp
            · simp [dictSet, hqp]
          · simp [hp, hc]
      rw [ih _ hnd.2 hqr]
      beta_reduce
      rw [hstep]

/-! ## Round-transition and fire-tail lemmas -/

/-- `next_player` only moves the index and the skip flag. -/
theorem next_player_frame (room : GameRoom) (e : List Nat) :
    (next_player room e).1.bullets = room.bullets ∧
    (next_player room e).1.players = room.players ∧
    (next_player room e).1.status = room.status := by
  unfold next_player
  split_ifs <;> simp

/-- Everything the round transition guarantees, relative to its input
state: round counter up by one, budget recomputed as `min(8, round+2)`,
a fresh bullet list of budget length, the eliminated list untouched,
surviving roster players' items cleared and re-rolled, and eliminated
players' items untouched. -/
theorem roulette_new_round_spec (room : GameRoom) (gd : RouletteData)
    (o : FireOracle) (hnd : room.players.Nodup) :
    (roulette_new_round room gd o).2.round_counter = gd.round_counter + 1 ∧
    (roulette_new_round room gd o).2.bullets_per_round =
      min 8 ((roulette_new_round room gd o).2.round_counter + 2) ∧
    (roulette_new_round room gd o).1.bullets.length =
      (roulette_new_round room gd o).2.bullets_per_round ∧
    (roulette_new_round room gd o).2.eliminated_players = gd.eliminated_players ∧
    (roulette_new_round room gd o).2.bullets_remaining =
      ((min 8 (gd.round_counter + 3) : Nat) : Int) ∧
    (∀ q, q ∈ room.players → q ∉ gd.eliminated_players →
      (gd.players_items q).isSome →
      (roulette_new_round room gd o).2.players_items q =
        some (if o.item_coin q then [o.item_pick q] else [])) ∧
    (∀ q, q ∈ gd.eliminated_players →
      (roulette_new_round room gd o).2.players_items q = gd.players_items q) := by
  unfold roulette_new_round
  dsimp only
  refine ⟨rfl, by omega, ?_, rfl, by norm_num [Nat.add_assoc], ?_, ?_⟩
  · simp [generate_bullets]
  · intro q hq ha hs
    rw [repopulate_items_mem_alive _ _ _ _ _ _ hnd hq ha,
        clear_items_mem_alive _ _ _ _ hnd hq ha]
    simp only [hs, if_true]
    by_cases hc : o.item_coin q <;> simp [hc]
  · intro q hq
    rw [repopulate_items_elim_mem _ _ _ _ _ _ hq, clear_items_elim_mem _ _ _ _ hq]

/-- The round transition always leaves a strictly positive
remaining-bullet count (the budget is at least 3). -/
theorem roulette_new_round_rem_pos (room : GameRoom) (gd : RouletteData)
    (o : FireOracle) :
    0 < (roulette_new_round room gd o).2.bullets_remaining := by
  unfold roulette_new_round
  dsimp only
  have h3 : 3 ≤ min 8 (gd.round_counter + 1 + 2) := by omega
  exact_mod_cast Nat.lt_of_lt_of_le (by norm_num) h3

/-- `fire_finish` reports the remaining-bullet count it was entered with. -/
theorem fire_finish_rem_after (room : GameRoom) (gd : RouletteData)
    (s t lb : Nat) (o : FireOracle) :
    (fire_finish room gd s t lb o).2.2.rem_after = gd.bullets_remaining := by
  unfold fire_finish fire_tail
  dsimp only
  split_ifs <;> rfl

/-- `fire_finish` reports the bullet value it was entered with. -/
theorem fire_finish_last_bullet (room : GameRoom) (gd : RouletteData)
    (s t lb : Nat) (o : FireOracle) :
    (fire_finish room gd s t lb o).2.2.last_bullet = lb := by
  unfold fire_finish fire_tail
  dsimp only
  split_ifs <;> rfl

/-- `fire_finish` flags the game as ended exactly when at most one
non-eliminated player remains. -/
theorem fire_finish_ended_iff (room : GameRoom) (gd : RouletteData)
    (s t lb : Nat) (o : FireOracle) :
    (fire_finish room gd s t lb o).2.2.ended = true ↔
    (room.players.filter (fun p => p ∉ gd.eliminated_players)).length ≤ 1 := by
  unfold fire_finish fire_tail
  dsimp only
  split_ifs <;> simp_all

/-- The number of `next_player` invocations of a fire action's tail:
0 when the game ended, 0 for a blank self-fire with bullets left,
2 for a blank self-fire that exhausted the bullets (the round
transition advances once and the common tail advances again), and
1 otherwise. -/
theorem fire_finish_calls (room : GameRoom) (gd : RouletteData)
    (s t lb : Nat) (o : FireOracle) :
    (fire_finish room gd s t lb o).2.2.next_player_calls =
      if (room.players.filter (fun p => p ∉ gd.eliminated_players)).length ≤ 1 then 0
      else if lb = 1 ∧ t = s then
        (if gd.bullets_remaining ≤ 0 then 2 else 0)
      else 1 := by
  unfold fire_finish fire_tail
  dsimp only
  split_ifs <;> simp_all

/-- When the game did not end and the bullets are exhausted,
`fire_finish` runs the round transition exactly once: the resulting
duel data is the round transition's output, and the room's bullet list
is the freshly generated one. -/
theorem fire_finish_exhaust (room : GameRoom) (gd : RouletteData)
    (s t lb : Nat) (o : FireOracle)
    (halive : ¬ (room.players.filter (fun p => p ∉ gd.eliminated_players)).length ≤ 1)
    (hex : gd.bullets_remaining ≤ 0) :
    (fire_finish room gd s t lb o).2.1 = (roulette_new_round room gd o).2 ∧
    (fire_finish room gd s t lb o).1.bullets = (roulette_new_round room gd o).1.bullets := by
  have hpos := roulette_new_round_rem_pos room gd o
  unfold fire_finish
  dsimp only
  rw [if_neg halive]
  by_cases hbs : lb = 1 ∧ t = s
  · rw [if_pos hbs, if_pos hex]
    unfold fire_tail
    rw [if_neg (by omega)]
    exact ⟨rfl, (next_player_frame _ _).1⟩
  · rw [if_neg hbs]
    unfold fire_tail
    rw [if_pos hex]
    exact ⟨rfl, rfl⟩

/-- `fire_action` is the shot phase followed by `fire_finish`. -/
theorem fire_action_eq (room : GameRoom) (gd : RouletteData)
    (shooter target : Nat) (o : FireOracle) :
    fire_action room gd shooter target o =
      fire_finish (shot_phase room gd target o).1 (shot_phase room gd target o).2.1
        shooter target (shot_phase room gd target o).2.2 o := rfl

/-! ## Concrete duel states for C2/C3 -/

/-- A running 2-player duel; player 1 is about to fire the round's last
bullet, a blank. -/
def duelRoomFire : GameRoom :=
  { status := RoomStatus.running, host_id := 1, players := [1, 2]
    create_time := 0, last_activity := 0, round := 1
    current_player_index := 0, skip_next_player := none
    current_bullet_type := 0, bullets := [1] }

/-- Duel data: both players at 3 health, empty items, no effects, one
bullet left in round 1. -/
def gdFire : RouletteData :=
  { players_health := fun _ => some 3
    players_items := fun _ => some []
    shield_of := fun _ => false
    evasion_of := fun _ => false
    defense_of := fun _ => false
    eliminated_players := []
    round_counter := 1
    bullets_remaining := 1
    bullets_per_round := 3
    sniper_shot := false
    double_shot := false }

/-- A fixed random oracle. -/
def oracle0 : FireOracle :=
  { fallback1 := 1, fallback2 := 1, evade_coin := false
    new_bullet_coins := fun _ => false
    item_coin := fun _ => false, item_pick := fun _ => 0 }

/-- Same room but the last bullet is live. -/
def duelRoomKill : GameRoom := { duelRoomFire with bullets := [2] }

/-- Same duel data but player 2 is down to 1 health. -/
def gdKill : RouletteData :=
  { gdFire with players_health := fun p => if p = 2 then some 1 else some 3 }

/-! ## C2: turn advancement after a fire action -/

/-- Counterexample for C2 as stated: player 1 blank self-fires the
round's last bullet; the game does not end, yet `next_player` is
invoked twice (once by the round transition of lines 1977–2025, which
does not return, and once more by the fall-through common tail at
line 2095) — not zero times. -/
theorem blank_self_fire_advances_cex :
    (fire_action duelRoomFire gdFire 1 1 oracle0).2.2.last_bullet = 1 ∧
    (fire_action duelRoomFire gdFire 1 1 oracle0).2.2.ended = false ∧
    (fire_action duelRoomFire gdFire 1 1 oracle0).2.2.next_player_calls = 2 := by
  refine ⟨?_, ?_, ?_⟩ <;> decide

/-- C2 amended: for every accepted fire action, the number of
`next_player` calls is 0 when the shot ended the game; otherwise, for a
Blank self-fire it is 0 when shots remain in the round but 2 when the
round's shots were exhausted (a round transition advances the turn and
the fall-through tail advances it again); every other accepted fire
action advances exactly once. -/
theorem fire_advance_call_count (room : GameRoom) (gd : RouletteData)
    (shooter target : Nat) (o : FireOracle) :
    (fire_action room gd shooter target o).2.2.next_player_calls =
      (if (fire_action room gd shooter target o).2.2.ended = true then 0
       else if (fire_action room gd shooter target o).2.2.last_bullet = 1 ∧
           target = shooter then
         (if (fire_action room gd shooter target o).2.2.rem_after ≤ 0 then 2 else 0)
       else 1) := by
  rw [fire_action_eq, fire_finish_calls]
  simp only [fire_finish_ended_iff, fire_finish_last_bullet, fire_finish_rem_after]

/-! ## C3: round transition on shot exhaustion -/

/-- Counterexample for C3 as stated: player 1 fires the round's last
bullet (live) at player 2 who has 1 health; the shot supply is
exhausted, but the game ends (player 2 eliminated) and no new round
begins — the round counter stays at 1. -/
theorem round_exhaustion_game_end_cex :
    (fire_action duelRoomKill gdKill 1 2 oracle0).2.2.rem_after ≤ 0 ∧
    (fire_action duelRoomKill gdKill 1 2 oracle0).2.2.ended = true ∧
    (fire_action duelRoomKill gdKill 1 2 oracle0).2.1.round_counter = 1 ∧
    gdKill.round_counter = 1 := by
  refine ⟨?_, ?_, ?_, ?_⟩ <;> decide

/-- C3 amended: whenever a fire action exhausts the round's shot supply
*and does not end the game*, a new round begins: the round counter goes
up by exactly 1, the shot budget becomes `min(8, round+2)`, a fresh
bullet queue of exactly that length is generated, every surviving
roster player's inventory is cleared and re-rolled (one 50%-chance
item), and eliminated players receive no items (their entries are the
deleted-on-elimination `none` or stay untouched).  `hkeys` is the
program invariant on items entries: they are created at join for every
roster player and deleted only on elimination, so every *surviving*
roster player has one (an eliminated player's entry may be gone). -/
theorem fire_exhaustion_new_round (room : GameRoom) (gd : RouletteData)
    (shooter target : Nat) (o : FireOracle)
    (hnd : room.players.Nodup)
    (hkeys : ∀ q ∈ room.players, q ∉ gd.eliminated_players →
      (gd.players_items q).isSome)
    (hne : (fire_action room gd shooter target o).2.2.ended = false)
    (hex : (fire_action room gd shooter target o).2.2.rem_after ≤ 0) :
    (fire_action room gd shooter target o).2.1.round_counter = gd.round_counter + 1 ∧
    (fire_action room gd shooter target o).2.1.bullets_per_round =
      min 8 ((fire_action room gd shooter target o).2.1.round_counter + 2) ∧
    (fire_action room gd shooter target o).1.bullets.length =
      (fire_action room gd shooter target o).2.1.bullets_per_round ∧
    (∀ q, q ∈ room.players →
      q ∉ (fire_action room gd shooter target o).2.1.eliminated_players →
      (fire_action room gd shooter target o).2.1.players_items q =
        some (if o.item_coin q then [o.item_pick q] else [])) ∧
    (∀ q, q ∈ (fire_action room gd shooter target o).2.1.eliminated_players →
      (fire_action room gd shooter target o).2.1.players_items q = none ∨
      (fire_action room gd shooter target o).2.1.players_items q = gd.players_items q) := by
  rw [fire_action_eq] at hne hex ⊢
  have hroom := shot_phase_room room gd target o
  obtain ⟨hdr, hde, hdi, hdt⟩ := shot_phase_delta room gd target o
  have hne' : ¬ ((shot_phase room gd target o).1.players.filter
      (fun p => p ∉ (shot_phase room gd target o).2.1.eliminated_players)).length ≤ 1 := by
    intro hc
    rw [(fire_finish_ended_iff _ _ _ _ _ _).mpr hc] at hne
    cases hne
  have hex' : (shot_phase room gd target o).2.1.bullets_remaining ≤ 0 := by
    rwa [fire_finish_rem_after] at hex
  obtain ⟨hfa1, hfa2⟩ := fire_finish_exhaust (shot_phase room gd target o).1
    (shot_phase room gd target o).2.1 shooter target (shot_phase room gd target o).2.2
    o hne' hex'
  have hnd' : (shot_phase room gd target o).1.players.Nodup := hroom.1 ▸ hnd
  obtain ⟨hs1, hs2, hs3, hs4, hs5, hs6, hs7⟩ :=
    roulette_new_round_spec (shot_phase room gd target o).1
      (shot_phase room gd target o).2.1 o hnd'
  refine ⟨?_, ?_, ?_, ?_, ?_⟩
  · rw [hfa1, hs1, hdr]
  · rw [hfa1, hs2]
  · rw [hfa2, hfa1]
    exact hs3
  · intro q hq halive
    rw [hfa1] at halive ⊢
    rw [hs4] at halive
    have halive0 : q ∉ gd.eliminated_players := by
      rcases hde with h | ⟨h, -⟩
      · rwa [h] at halive
      · intro hc
        exact halive (by rw [h]; exact List.mem_append_left _ hc)
    have hq' : q ∈ (shot_phase room gd target o).1.players := hroom.1 ▸ hq
    have hsome : ((shot_phase room gd target o).2.1.players_items q).isSome := by
      by_cases hqt : q = target
      · subst hqt
        rcases hdt with h | ⟨h1, h2⟩
        · rw [h]
          exact hkeys q hq halive0
        · exact absurd h2 halive
      · rw [hdi q hqt]
        exact hkeys q hq halive0
    exact hs6 q hq' halive hsome
  · intro q hq
    rw [hfa1] at hq ⊢
    rw [hs4] at hq
    rw [hs7 q hq]
    by_cases hqt : q = target
    · subst hqt
      rcases hdt with h | ⟨h1, h2⟩
      · exact Or.inr h
      · exact Or.inl h1
    · exact Or.inr (hdi q hqt)

/-- Witness for the amended C3: player 1 fires the round's last (live)
bullet at the healthy player 2 — both survive, the round moves to 2,
the budget to `min(8,4) = 4`, and both inventories are re-rolled (the
oracle's coins land false, so both end empty). -/
theorem fire_exhaustion_new_round_witness :
    (fire_action duelRoomKill gdFire 1 2 oracle0).2.2.ended = false ∧
    (fire_action duelRoomKill gdFire 1 2 oracle0).2.2.rem_after ≤ 0 ∧
    (fire_action duelRoomKill gdFire 1 2 oracle0).2.1.round_counter =
      gdFire.round_counter + 1 ∧
    (∀ q, q ∈ duelRoomKill.players →
      q ∉ (fire_action duelRoomKill gdFire 1 2 oracle0).2.1.eliminated_players →
      (fire_action duelRoomKill gdFire 1 2 oracle0).2.1.players_items q =
        some (if oracle0.item_coin q then [oracle0.item_pick q] else [])) :=
  ⟨by decide, by decide,
   (fire_exhaustion_new_round duelRoomKill gdFire 1 2 oracle0 (by decide)
     (by decide) (by decide) (by decide)).1,
   (fire_exhaustion_new_round duelRoomKill gdFire 1 2 oracle0 (by decide)
     (by decide) (by decide) (by decide)).2.2.2.1⟩

/-! ## C4: turn advancement -/

/-- Adding a nonzero distance below the modulus moves a residue. -/
theorem add_mod_ne (n a d : Nat) (hn : 0 < n) (hd1 : 0 < d) (hd2 : d < n) :
    (a + d) % n ≠ a % n := by
  intro h
  have hx : a % n < n := Nat.mod_lt _ hn
  rw [Nat.add_mod] at h
  rw [Nat.mod_eq_of_lt hd2] at h
  rcases Nat.lt_or_ge (a % n + d) n with hlt | hge
  · rw [Nat.mod_eq_of_lt hlt] at h
    omega
  · have hsub : (a % n + d) % n = a % n + d - n := by
      rw [Nat.mod_eq_sub_mod hge, Nat.mod_eq_of_lt (by omega)]
    rw [hsub] at h
    omega

/-- Distinct in-range positions of a duplicate-free list carry distinct
values. -/
theorem getD_ne_of_ne (l : List Nat) (hnd : l.Nodup) (i j : Nat)
    (hi : i < l.length) (hj : j < l.length) (hij : i ≠ j) :
    l.getD i 0 ≠ l.getD j 0 := by
  rw [List.getD_eq_getElem l 0 hi, List.getD_eq_getElem l 0 hj]
  intro h
  exact hij ((List.Nodup.getElem_inj_iff hnd).mp h)

/-- The unique offset that brings the cyclic scan from `a` to slot `k`. -/
theorem visit_pos (n a k : Nat) (hn : 0 < n) (hk : k < n) :
    (k + n - a % n) % n < n ∧ (a + (k + n - a % n) % n) % n = k := by
  have hr : a % n < n := Nat.mod_lt _ hn
  refine ⟨Nat.mod_lt _ hn, ?_⟩
  by_cases hkr : a % n ≤ k
  · have hm : (k + n - a % n) % n = k - a % n := by
      have he : k + n - a % n = (k - a % n) + n := by omega
      rw [he, Nat.add_mod_right]
      exact Nat.mod_eq_of_lt (by omega)
    rw [hm, Nat.add_mod, Nat.mod_eq_of_lt (show k - a % n < n by omega)]
    have hsum : a % n + (k - a % n) = k := by omega
    rw [hsum]
    exact Nat.mod_eq_of_lt hk
  · have hm : (k + n - a % n) % n = k + n - a % n :=
      Nat.mod_eq_of_lt (by omega)
    rw [hm, Nat.add_mod, Nat.mod_eq_of_lt (show k + n - a % n < n by omega)]
    have hsum : a % n + (k + n - a % n) = k + n := by omega
    rw [hsum, Nat.add_mod_right]
    exact Nat.mod_eq_of_lt hk

/-- A roster with at least one surviving player has a surviving slot. -/
theorem one_alive_slot (players eliminated : List Nat)
    (h : 1 ≤ (players.filter (fun p => p ∉ eliminated)).length) :
    ∃ k, k < players.length ∧ players.getD k 0 ∉ eliminated := by
  induction players with
  | nil => simp at h
  | cons p rest ih =>
    by_cases hp : p ∈ eliminated
    · rw [List.filter_cons, if_neg (by simp [hp])] at h
      obtain ⟨k, hk, ha⟩ := ih h
      exact ⟨k + 1, by simpa using hk, by simpa using ha⟩
    · exact ⟨0, by simp, by simpa using hp⟩

/-- A roster with at least two surviving players has two distinct
surviving slots. -/
theorem two_alive_slots (players eliminated : List Nat)
    (h : 2 ≤ (players.filter (fun p => p ∉ eliminated)).length) :
    ∃ k1 k2, k1 < k2 ∧ k2 < players.length ∧
      players.getD k1 0 ∉ eliminated ∧ players.getD k2 0 ∉ eliminated := by
  induction players with
  | nil => simp at h
  | cons p rest ih =>
    by_cases hp : p ∈ eliminated
    · rw [List.filter_cons, if_neg (by simp [hp])] at h
      obtain ⟨k1, k2, h12, h2, a1, a2⟩ := ih h
      exact ⟨k1 + 1, k2 + 1, by omega, by simpa using h2,
        by simpa using a1, by simpa using a2⟩
    · rw [List.filter_cons, if_pos (by simp [hp])] at h
      have h1 : 1 ≤ (rest.filter (fun p => p ∉ eliminated)).length := by
        simpa using Nat.le_of_succ_le_succ h
      obtain ⟨k, hk, ha⟩ := one_alive_slot rest eliminated h1
      exact ⟨0, k + 1, by omega, by simpa using hk,
        by simpa using hp, by simpa using ha⟩

/-- Step equation of the search loop: eliminated candidate, keep looking. -/
theorem next_player_loop_succ_elim (players eliminated : List Nat)
    (fuel : Nat) (skip : Option Nat) (idx : Nat)
    (he : players.getD ((idx + 1) % players.length) 0 ∈ eliminated) :
    next_player_loop players eliminated (fuel + 1) skip idx =
      next_player_loop players eliminated fuel skip ((idx + 1) % players.length) := by
  simp only [next_player_loop]
  rw [if_pos he]

/-- Step equation of the search loop: surviving candidate equal to the
skip flag, clear the flag and keep looking. -/
theorem next_player_loop_succ_skip (players eliminated : List Nat)
    (fuel : Nat) (skip : Option Nat) (idx : Nat)
    (he : players.getD ((idx + 1) % players.length) 0 ∉ eliminated)
    (hm : skip = some (players.getD ((idx + 1) % players.length) 0)) :
    next_player_loop players eliminated (fuel + 1) skip idx =
      next_player_loop players eliminated fuel none ((idx + 1) % players.length) := by
  simp only [next_player_loop]
  rw [if_neg he, if_pos hm]

/-- Step equation of the search loop: surviving candidate not subject to
the skip flag, select it. -/
theorem next_player_loop_succ_ret (players eliminated : List Nat)
    (fuel : Nat) (skip : Option Nat) (idx : Nat)
    (he : players.getD ((idx + 1) % players.length) 0 ∉ eliminated)
    (hm : ¬ skip = some (players.getD ((idx + 1) % players.length) 0)) :
    next_player_loop players eliminated (fuel + 1) skip idx =
      ((idx + 1) % players.length, skip,
       players.getD ((idx + 1) % players.length) 0) := by
  simp only [next_player_loop]
  rw [if_neg he, if_neg hm]

/-- With a cleared skip flag, the loop selects a surviving player as
soon as one of the next `fuel` cyclic slots holds one, and the selected
player is one of those slots' players. -/
theorem next_player_loop_none_spec (players eliminated : List Nat) :
    ∀ (fuel idx : Nat),
      (∃ i, i < fuel ∧
        players.getD ((idx + 1 + i) % players.length) 0 ∉ eliminated) →
      (next_player_loop players eliminated fuel none idx).2.2 ∉ eliminated ∧
      ∃ i, i < fuel ∧ (next_player_loop players eliminated fuel none idx).2.2 =
        players.getD ((idx + 1 + i) % players.length) 0 := by
  intro fuel
  induction fuel with
  | zero =>
    intro idx h
    obtain ⟨i, hi, -⟩ := h
    omega
  | succ fuel ih =>
    intro idx h
    obtain ⟨i, hi, ha⟩ := h
    by_cases he : players.getD ((idx + 1) % players.length) 0 ∈ eliminated
    · have hi0 : i ≠ 0 := by
        intro h0
        subst h0
        rw [Nat.add_zero] at ha
        exact ha he
      rw [next_player_loop_succ_elim players eliminated fuel none idx he]
      have hshift : ∀ j, ((idx + 1) % players.length + 1 + j) % players.length =
          (idx + 1 + (1 + j)) % players.length := by
        intro j
        have h' : (idx + 1) % players.length + 1 + j =
            (idx + 1) % players.length + (1 + j) := by omega
        rw [h', Nat.mod_add_mod]
      have hrec := ih ((idx + 1) % players.length)
        ⟨i - 1, by omega, by
          rw [hshift]
          have hh : 1 + (i - 1) = i := by omega
          rw [hh]
          exact ha⟩
      refine ⟨hrec.1, ?_⟩
      obtain ⟨j, hj, hval⟩ := hrec.2
      refine ⟨1 + j, by omega, ?_⟩
      rw [hval, hshift]
    · rw [next_player_loop_succ_ret players eliminated fuel none idx he (by simp)]
      exact ⟨he, 0, by omega, by rw [Nat.add_zero]⟩

/-- With any skip flag, the loop selects a surviving player whenever two
of the next `fuel ≤ |roster|` cyclic slots hold survivors; moreover the
selected player is never the flagged player (the flag is cleared when
its player comes up, and that player is passed over). -/
theorem next_player_loop_skip_spec (players eliminated : List Nat)
    (hnd : players.Nodup) :
    ∀ (fuel idx : Nat) (skip : Option Nat),
      fuel ≤ players.length →
      (∃ i1 i2, i1 < i2 ∧ i2 < fuel ∧
        players.getD ((idx + 1 + i1) % players.length) 0 ∉ eliminated ∧
        players.getD ((idx + 1 + i2) % players.length) 0 ∉ eliminated) →
      (next_player_loop players eliminated fuel skip idx).2.2 ∉ eliminated ∧
      ∀ s, skip = some s →
        (next_player_loop players eliminated fuel skip idx).2.2 ≠ s := by
  intro fuel
  induction fuel with
  | zero =>
    intro idx skip hfuel h
    obtain ⟨i1, i2, h12, h2, -, -⟩ := h
    omega
  | succ fuel ih =>
    intro idx skip hfuel h
    obtain ⟨i1, i2, h12, h2, ha1, ha2⟩ := h
    have hshift : ∀ j, ((idx + 1) % players.length + 1 + j) % players.length =
        (idx + 1 + (1 + j)) % players.length := by
      intro j
      have h' : (idx + 1) % players.length + 1 + j =
          (idx + 1) % players.length + (1 + j) := by omega
      rw [h', Nat.mod_add_mod]
    by_cases he : players.getD ((idx + 1) % players.length) 0 ∈ eliminated
    · have hi0 : i1 ≠ 0 := by
        intro h0
        subst h0
        rw [Nat.add_zero] at ha1
        exact ha1 he
      rw [next_player_loop_succ_elim players eliminated fuel skip idx he]
      exact ih ((idx + 1) % players.length) skip (by omega)
        ⟨i1 - 1, i2 - 1, by omega, by omega,
         by
           rw [hshift]
           have hh : 1 + (i1 - 1) = i1 := by omega
           rw [hh]
           exact ha1,
         by
           rw [hshift]
           have hh : 1 + (i2 - 1) = i2 := by omega
           rw [hh]
           exact ha2⟩
    · by_cases hm : skip = some (players.getD ((idx + 1) % players.length) 0)
      · rw [next_player_loop_succ_skip players eliminated fuel skip idx he hm]
        have hA := next_player_loop_none_spec players eliminated fuel
          ((idx + 1) % players.length)
          ⟨i2 - 1, by omega, by
            rw [hshift]
            have hh : 1 + (i2 - 1) = i2 := by omega
            rw [hh]
            exact ha2⟩
        refine ⟨hA.1, ?_⟩
        intro s hs
        obtain ⟨j, hj, hval⟩ := hA.2
        rw [hval, hshift j]
        rw [hm] at hs
        have hspid : s = players.getD ((idx + 1) % players.length) 0 :=
          (Option.some.inj hs).symm
        rw [hspid]
        have hn : 0 < players.length := by omega
        have hmodne : (idx + 1 + (1 + j)) % players.length ≠
            (idx + 1) % players.length :=
          add_mod_ne players.length (idx + 1) (1 + j) hn (by omega) (by omega)
        exact getD_ne_of_ne players hnd _ _ (Nat.mod_lt _ hn) (Nat.mod_lt _ hn) hmodne
      · rw [next_player_loop_succ_ret players eliminated fuel skip idx he hm]
        refine ⟨he, ?_⟩
        intro s hs heq
        apply hm
        rw [hs]
        have hpid : players.getD ((idx + 1) % players.length) 0 = s := heq
        rw [hpid]

/-- C4: on a duplicate-free roster holding at least 2 non-eliminated
players, `next_player` returns a non-eliminated player, and never the
player named by `skip_next_player` (whose turn is skipped once, the
flag being cleared when that player comes up in the scan).  The scan is
bounded by construction: `next_player` runs `next_player_loop` with
fuel equal to the roster length, so it visits at most roster-length
slots. -/
theorem next_player_selects_alive (room : GameRoom) (eliminated : List Nat)
    (hnd : room.players.Nodup)
    (h2 : 2 ≤ (room.players.filter (fun p => p ∉ eliminated)).length) :
    (next_player room eliminated).2 ∉ eliminated ∧
    ∀ s, room.skip_next_player = some s → (next_player room eliminated).2 ≠ s := by
  have hlen : (room.players.filter (fun p => p ∉ eliminated)).length ≤
      room.players.length := List.length_filter_le _ _
  have hn : 0 < room.players.length := by omega
  obtain ⟨k1, k2, h12, hk2, a1, a2⟩ := two_alive_slots room.players eliminated h2
  have hk1 : k1 < room.players.length := by omega
  obtain ⟨hi1lt, hi1⟩ := visit_pos room.players.length
    (room.current_player_index + 1) k1 hn hk1
  obtain ⟨hi2lt, hi2⟩ := visit_pos room.players.length
    (room.current_player_index + 1) k2 hn hk2
  have hine : (k1 + room.players.length -
        (room.current_player_index + 1) % room.players.length) % room.players.length ≠
      (k2 + room.players.length -
        (room.current_player_index + 1) % room.players.length) % room.players.length := by
    intro hh
    rw [hh] at hi1
    omega
  have hwit : ∃ i1 i2, i1 < i2 ∧ i2 < room.players.length ∧
      room.players.getD ((room.current_player_index + 1 + i1) % room.players.length) 0
        ∉ eliminated ∧
      room.players.getD ((room.current_player_index + 1 + i2) % room.players.length) 0
        ∉ eliminated := by
    rcases Nat.lt_or_ge
      ((k1 + room.players.length -
        (room.current_player_index + 1) % room.players.length) % room.players.length)
      ((k2 + room.players.length -
        (room.current_player_index + 1) % room.players.length) % room.players.length)
      with hlt | hge
    · refine ⟨_, _, hlt, hi2lt, ?_, ?_⟩
      · rw [hi1]
        exact a1
      · rw [hi2]
        exact a2
    · have hlt : (k2 + room.players.length -
          (room.current_player_index + 1) % room.players.length) % room.players.length <
        (k1 + room.players.length -
          (room.current_player_index + 1) % room.players.length) % room.players.length := by
        omega
      refine ⟨_, _, hlt, hi1lt, ?_, ?_⟩
      · rw [hi2]
        exact a2
      · rw [hi1]
        exact a1
  have hloop := next_player_loop_skip_spec room.players eliminated hnd
    room.players.length room.current_player_index room.skip_next_player
    (Nat.le_refl _) hwit
  have hempty : room.players.isEmpty = false := by
    cases h' : room.players with
    | nil =>
      rw [h'] at hn
      simp at hn
    | cons a l => rfl
  unfold next_player
  rw [if_neg (by simp [hempty])]
  exact ⟨hloop.1, hloop.2⟩

/-- A running 3-player duel room: player 2 is eliminated and player 3
carries the skip flag; the turn is at player 1 (slot 0). -/
def npRoom : GameRoom :=
  { status := RoomStatus.running, host_id := 1, players := [1, 2, 3]
    create_time := 0, last_activity := 0, round := 1
    current_player_index := 0, skip_next_player := some 3
    current_bullet_type := 0, bullets := [] }

/-- Witness for C4: the scan skips eliminated player 2, clears the flag
on player 3 and passes over them, and selects player 1. -/
theorem next_player_selects_alive_witness :
    npRoom.players.Nodup ∧
    2 ≤ (npRoom.players.filter (fun p => p ∉ [2])).length ∧
    (next_player npRoom [2]).2 ∉ [2] ∧
    (next_player npRoom [2]).2 ≠ 3 ∧
    (next_player npRoom [2]).2 = 1 :=
  ⟨by decide, by decide,
   (next_player_selects_alive npRoom [2] (by decide) (by decide)).1,
   (next_player_selects_alive npRoom [2] (by decide) (by decide)).2 3 rfl,
   by decide⟩
